import Mathlib

/-!
# Verification of the Zendesk backup scripts' core loop

Shallow embedding of the cache gate, rate limiter, retry wrapper and
paginated fetch loops of `backup_zendesk_all.py`,
`generate_kb_from_tickets.py` and `backup_zendesk_closed_tickets_pubsub.py`,
with theorems settling the spec's claims about them.
-/

namespace ZendeskBackup

/-! ## Cache gate (`is_item_cached_and_current`, backup_zendesk_all.py)

The Python function receives a file path and the remote record's
`updated_at` string.  We model the state of the file at that path:
`missing` (os.path.exists is false), `corrupt` (opening or `json.load`
raises `JSONDecodeError`/`IOError`, caught by the function's `except`),
or `parsed` with the values of the optional keys `status` and
`updated_at` (`dict.get` returns `None` for a missing key; the code
uses `cached_item.get('status')` and `cached_item.get('updated_at', '')`). -/

/-- State of the cache file read by `is_item_cached_and_current`. -/
inductive CachedFile where
  | missing : CachedFile
  | corrupt : CachedFile
  | parsed (status : Option String) (updated_at : Option String) : CachedFile
deriving DecidableEq

/-- The gate `is_item_cached_and_current(file_path, updated_at)` from
backup_zendesk_all.py: `False` when the file does not exist; `False` when
reading or decoding raises (the caught exception branch); otherwise `True`
when the cached `status` is `'closed'`, else the string comparison
`cached_item.get('updated_at', '') == updated_at`. -/
def is_item_cached_and_current (file : CachedFile) (updated_at : String) : Bool :=
  match file with
  | .missing => false
  | .corrupt => false
  | .parsed status cachedUpd =>
    if status = some "closed" then true
    else cachedUpd.getD "" == updated_at

/-! ## RateLimiter.wait_if_needed

Modelled from backup_zendesk_all.py (generate_kb_from_tickets.py is
identical): under the lock, take `now = datetime.now()`; prune recorded
request times at or before `now - 1 minute` (the list comprehension keeps
`req_time > cutoff`); if at least `max_requests_per_minute` remain, let
`oldest = min(request_times)` and sleep `61 - (now - oldest)` seconds when
that is positive; then append `now` (the time captured at entry, not the
post-sleep time) and increment `total_requests`.  Time is modelled in
whole seconds as `Int`; the function returns the new state together with
the wall-clock time at which the call returns (`now` plus any sleep). -/

/-- The fields of `RateLimiter` that `wait_if_needed` touches. -/
structure RateLimiterState where
  request_times : List Int
  total_requests : Nat
deriving DecidableEq

/-- The pruning comprehension
`[t for t in request_times if t > now - timedelta(minutes=1)]`. -/
def pruneWindow (times : List Int) (now : Int) : List Int :=
  times.filter (fun t => now - 60 < t)

/-- The sleeping step of `wait_if_needed`: when the pruned list has
reached the per-minute budget, sleep `61 - (now - oldest)` seconds if that
is positive (`oldest = min(self.request_times)` after pruning); the result
is the wall-clock time after the optional `time.sleep`. -/
def sleepUntilWindowFrees (maxPerMinute : Nat) (pruned : List Int)
    (now : Int) : Int :=
  if maxPerMinute ≤ pruned.length then
    match pruned.min? with
    | some oldest =>
      if 0 < 61 - (now - oldest) then now + (61 - (now - oldest)) else now
    | none => now
  else now

/-- The method `RateLimiter.wait_if_needed()`.  Output: (new state, return time). -/
def wait_if_needed (maxPerMinute : Nat) (s : RateLimiterState) (now : Int) :
    RateLimiterState × Int :=
  (⟨pruneWindow s.request_times now ++ [now], s.total_requests + 1⟩,
   sleepUntilWindowFrees maxPerMinute (pruneWindow s.request_times now) now)

/-! ## RateLimiter.handle_rate_limit_response

Modelled from backup_zendesk_all.py: on a 429 status the method
increments `rate_limited_count`, sleeps for `int(headers.get
('retry-after', 60))` seconds and returns `True`; on any other status it
returns `False` without sleeping (it may record header info, which does
not affect the claim).  The result triple is (returned boolean, seconds
slept, new rate_limited_count). -/

/-- The method `RateLimiter.handle_rate_limit_response(response)`: inputs are the
response's status code, the parsed `retry-after` header (none when the
header is absent), and the current `rate_limited_count`. -/
def handle_rate_limit_response (statusCode : Nat) (retryAfter : Option Nat)
    (rateLimitedCount : Nat) : Bool × Nat × Nat :=
  if statusCode = 429 then
    (true, retryAfter.getD 60, rateLimitedCount + 1)
  else
    (false, 0, rateLimitedCount)

/-! ## fetch_data_with_retries

Modelled from backup_zendesk_all.py (generate_kb_from_tickets.py is
identical): `for attempt in range(max_retries): try: return
fetch_data(endpoint); except: if attempt == max_retries - 1: raise;
time.sleep((2 ** attempt) + 1)`.  The outcome of each attempt is given
by `fetch : Nat → Except ε α`; the result pairs the returned value
(`none` models Python's implicit `None` when the loop body never runs)
with the list of sleep durations performed, in order. -/

/-- The retry loop with `remaining` iterations left, at index `attempt`;
`remaining = 0` after destructuring corresponds to
`attempt == max_retries - 1`, where the last error is re-raised. -/
def fetchRetryLoop (fetch : Nat → Except ε α) :
    Nat → Nat → Option (Except ε α) × List Nat
  | 0, _ => (none, [])
  | remaining + 1, attempt =>
    match fetch attempt with
    | .ok a => (some (.ok a), [])
    | .error e =>
      if remaining = 0 then (some (.error e), [])
      else
        ((fetchRetryLoop fetch remaining (attempt + 1)).1,
         (2 ^ attempt + 1) :: (fetchRetryLoop fetch remaining (attempt + 1)).2)

/-- The wrapper `fetch_data_with_retries(endpoint, max_retries=3)`. -/
def fetch_data_with_retries (fetch : Nat → Except ε α)
    (maxRetries : Nat := 3) : Option (Except ε α) × List Nat :=
  fetchRetryLoop fetch maxRetries 0

/-! ## Paginated fetch loops

Two loops are embedded.  `pubsubTicketsLoop` is the incremental-tickets
loop of backup_zendesk_closed_tickets_pubsub.py: fetch the endpoint,
process every ticket of the page into the log, break when the current
endpoint equals the previous one, otherwise follow `next_page` (the
loop condition `while tickets_endpoint` stops on a null pointer).
`backupTicketsLoop` is `backup_tickets` of backup_zendesk_all.py: fetch
with retries (a fetch failure is caught and breaks the loop), break
before processing when the page's ticket array is empty, process the
page, break when `end_time` equals the previous page's, otherwise
follow `next_page`.  Both are given fuel: `none` means the fuel ran out
before the loop exited, so `isSome` results express termination. -/

/-- A page of the incremental tickets endpoint: the `tickets` array,
`data.get("end_time")` and `data.get("next_page")`. -/
structure TicketsPage (E I T : Type) where
  tickets : List I
  end_time : Option T
  next_page : Option E
deriving DecidableEq

/-- The ticket pagination loop of backup_zendesk_closed_tickets_pubsub.py.
`server e` returns the page body at endpoint `e`: its processed tickets
and its `next_page`. -/
def pubsubTicketsLoop {E I : Type} [DecidableEq E]
    (server : E → List I × Option E) :
    Nat → Option E → Option E → List I → Option (List I)
  | 0, _, _, _ => none
  | _ + 1, none, _, log => some log
  | fuel + 1, some e, previous, log =>
    if some e = previous then some (log ++ (server e).1)
    else pubsubTicketsLoop server fuel (server e).2 (some e)
      (log ++ (server e).1)

/-- The `backup_tickets` pagination loop of backup_zendesk_all.py.
`server e` is the outcome of `fetch_data_with_retries(e)`; `proc` is
`process_ticket`, applied to every ticket of a page (the thread pool's
`executor.map` preserves order). -/
def backupTicketsLoop {E I R T : Type} [DecidableEq T]
    (server : E → Except Unit (TicketsPage E I T)) (proc : I → R) :
    Nat → Option E → Option T → List R → Option (List R)
  | 0, _, _, _ => none
  | _ + 1, none, _, log => some log
  | fuel + 1, some e, prevEnd, log =>
    match server e with
    | .error _ => some log
    | .ok page =>
      if page.tickets.isEmpty then some log
      else
        if page.end_time = prevEnd then some (log ++ page.tickets.map proc)
        else backupTicketsLoop server proc fuel page.next_page page.end_time
          (log ++ page.tickets.map proc)

/-- A four-page ticket server: three pages of two tickets each, then a
page with an empty ticket array; distinct `end_time`s; `next_page`
chains 1 → 2 → 3 → 4. -/
def demoTicketServer : Nat → Except Unit (TicketsPage Nat Nat Nat)
  | 1 => .ok ⟨[1, 2], some 101, some 2⟩
  | 2 => .ok ⟨[3, 4], some 102, some 3⟩
  | 3 => .ok ⟨[5, 6], some 103, some 4⟩
  | 4 => .ok ⟨[], some 104, none⟩
  | _ => .error ()

/-! ## Per-record and per-resource error propagation (C9)

`process_ticket` (backup_zendesk_all.py): when the cache gate answers
current and the cache-to-backup copy succeeds, the row status is
`cached` (a failed copy falls through to the download path); otherwise
the download-and-save path yields `downloaded` on success and, when its
`except` clause catches a write failure, an `error` row — the exception
never escapes the record.  A page-fetch failure after retries is caught
only inside `backup_tickets` (`try/except` around
`fetch_data_with_retries`, then `break`); `backup_users`,
`backup_organizations`, `backup_guide_articles` and
`backup_support_assets` call `fetch_data_with_retries` bare, so the
exception propagates into `main`'s single `try`, which prints
"Backup failed" and returns `False`, skipping every remaining
resource. -/

/-- One record's processing in `process_ticket`: the Booleans say
whether the cache gate answered current, whether the cache-to-backup
copy succeeded, and whether the download-and-save path succeeded. -/
def process_ticket (cachedCurrent copyOk saveOk : Bool)
    (filename : String) : String × String :=
  if cachedCurrent && copyOk then (filename, "cached")
  else if saveOk then (filename, "downloaded")
  else (filename, "error")

/-- A page batch: `executor.map(process_ticket, tickets)` over the jobs,
every row kept in the log. -/
def processTicketBatch (jobs : List (Bool × Bool × Bool × String)) :
    List (String × String) :=
  jobs.map (fun j => process_ticket j.1 j.2.1 j.2.2.1 j.2.2.2)

/-- The five sibling resources backed up by `main`. -/
inductive Resource where
  | supportAssets | guideArticles | organizations | tickets | users
deriving DecidableEq

/-- Only `backup_tickets` wraps its page fetch in `try/except` and
breaks; the other four backup loops let a fetch failure propagate. -/
def resourceCatchesFetchError : Resource → Bool
  | .tickets => true
  | _ => false

/-- One resource's backup under a page-fetch failure map: it raises
exactly when its fetch fails and its loop does not catch. -/
def backupResource (fetchFails : Resource → Bool) (r : Resource) :
    Except Unit Unit :=
  if fetchFails r && !resourceCatchesFetchError r then .error () else .ok ()

/-- The order in which `main` backs up the resources. -/
def mainOrder : List Resource :=
  [.supportAssets, .guideArticles, .organizations, .tickets, .users]

/-- The single `try` block of `main`: run the backups in order; the first
raised fetch error aborts the run (`return False`), leaving the
remaining resources unprocessed.  Returns (success, resources whose
backup ran). -/
def runBackups (fetchFails : Resource → Bool) :
    List Resource → List Resource → Bool × List Resource
  | [], completed => (true, completed)
  | r :: rest, completed =>
    match backupResource fetchFails r with
    | .ok _ => runBackups fetchFails rest (completed ++ [r])
    | .error _ => (false, completed)

/-- The run of `main()` under a given page-fetch failure map. -/
def mainRun (fetchFails : Resource → Bool) : Bool × List Resource :=
  runBackups fetchFails mainOrder []

/-! ## slugify (backup_zendesk_all.py)

With `allow_unicode` at its default `False` the pipeline is:
`unicodedata.normalize('NFKD', value).encode('ascii', 'ignore')
.decode('ascii')`, then `re.sub(r'[^\w\s-]', '', value.lower())`, then
`re.sub(r'[-\s]+', '-', value).strip('-_')`.  Python strings are
modelled as lists of Unicode code points.  NFKD normalisation is a
Unicode-table function, so it enters the model as a parameter `nfkd`;
the only property of it any theorem uses is the Unicode guarantee that
ASCII-only strings are NFKD-invariant, taken as a hypothesis.  After
the ascii-ignore encode the string is pure ASCII, so the regex classes
`\w` and `\s` are modelled on their ASCII fragments
(`[a-zA-Z0-9_]`; tab through carriage return, 28–31 and space). -/

/-- A Python string as its list of Unicode code points. -/
abbrev PyStr := List Nat

/-- The step `.encode('ascii', 'ignore').decode('ascii')`: non-ASCII code points
are dropped. -/
def asciiEncodeIgnore (s : PyStr) : PyStr := s.filter (fun c => c < 128)

/-- Python `str.lower()` on one ASCII code point. -/
def pyLowerChar (c : Nat) : Nat := if 65 ≤ c ∧ c ≤ 90 then c + 32 else c

/-- Python `str.lower()` (code points above 127 never reach it here). -/
def pyLower (s : PyStr) : PyStr := s.map pyLowerChar

/-- The regex class `\w` on ASCII: `[a-zA-Z0-9_]`. -/
def isWordChar (c : Nat) : Bool :=
  decide ((97 ≤ c ∧ c ≤ 122) ∨ (65 ≤ c ∧ c ≤ 90) ∨ (48 ≤ c ∧ c ≤ 57)
    ∨ c = 95)

/-- The regex class `\s` on ASCII: tab (9) through carriage return (13),
the separator control characters 28–31, and space (32). -/
def isSpaceChar (c : Nat) : Bool := decide ((9 ≤ c ∧ c ≤ 13) ∨ (28 ≤ c ∧ c ≤ 32))

/-- The substitution `re.sub(r'[^\w\s-]', '', ·)`: keep word characters, whitespace and
hyphens (45), delete everything else. -/
def removeNonWordChars (s : PyStr) : PyStr :=
  s.filter (fun c => isWordChar c || isSpaceChar c || c == 45)

/-- The regex class `[-\s]`. -/
def isHyphenSpace (c : Nat) : Bool := isSpaceChar c || c == 45

/-- The substitution `re.sub(r'[-\s]+', '-', ·)`: a maximal run of hyphens/whitespace
becomes one hyphen.  `inRun` records whether the previous character was
part of such a run. -/
def collapseRunsAux : PyStr → Bool → PyStr
  | [], _ => []
  | c :: rest, inRun =>
    if isHyphenSpace c then
      if inRun then collapseRunsAux rest true
      else 45 :: collapseRunsAux rest true
    else c :: collapseRunsAux rest false

/-- The substitution `re.sub(r'[-\s]+', '-', ·)`. -/
def collapseRuns (s : PyStr) : PyStr := collapseRunsAux s false

/-- The character set of `.strip('-_')`: hyphen (45) and underscore (95). -/
def isStripChar (c : Nat) : Bool := c == 45 || c == 95

/-- Python `str.strip('-_')`: remove the characters of the set from both ends. -/
def pyStrip (s : PyStr) : PyStr :=
  ((s.dropWhile isStripChar).reverse.dropWhile isStripChar).reverse

/-- The function `slugify(value, allow_unicode=False)`, parameterised by the NFKD
normalisation table. -/
def slugify (nfkd : PyStr → PyStr) (s : PyStr) : PyStr :=
  pyStrip (collapseRuns (removeNonWordChars (pyLower
    (asciiEncodeIgnore (nfkd s)))))

/-- A lowercase-ASCII slug character: `[a-z0-9_]`. -/
def isSlugChar (c : Nat) : Bool :=
  decide ((97 ≤ c ∧ c ≤ 122) ∨ (48 ≤ c ∧ c ≤ 57) ∨ c = 95)

/-- The claim's shape of a slug: only lowercase ASCII word characters
and hyphens, no two adjacent hyphens, and neither end a hyphen or an
underscore. -/
def SlugWellFormed (s : PyStr) : Prop :=
  (∀ c ∈ s, isSlugChar c = true ∨ c = 45)
  ∧ List.Chain' (fun a b => a ≠ 45 ∨ b ≠ 45) s
  ∧ (∀ c, s.head? = some c → isStripChar c = false)
  ∧ (∀ c, s.getLast? = some c → isStripChar c = false)

end ZendeskBackup

namespace ZendeskBackup

/-! ## Theorems about the cache gate -/

/-- C1, counterexample: a parseable, non-closed cache record whose cached
`updated_at` is strictly greater than the remote value makes the gate
return `false` (fetch), whereas the claim says a cached value greater than
or equal to the remote one yields skip (`true`).  The code compares the
two strings with `==`, not `>=`. -/
theorem cache_gate_newer_cached_fetches :
    is_item_cached_and_current
      (.parsed (some "open") (some "2024-01-03T00:00:00Z"))
      "2024-01-02T00:00:00Z" = false := by
  decide

/-- C1, amended: for an existing, parseable cache file whose status is not
`'closed'`, the gate returns skip (`true`) exactly when the cached
`updated_at` (defaulted to `""` when the key is missing) is equal, as a
string, to the remote value; every other pair — including a cached value
strictly greater than the remote one — yields fetch (`false`). -/
theorem cache_gate_skips_iff_equal (status : Option String)
    (cachedUpd : Option String) (remoteUpd : String)
    (hstatus : status ≠ some "closed") :
    is_item_cached_and_current (.parsed status cachedUpd) remoteUpd
      = (cachedUpd.getD "" == remoteUpd) := by
  simp [is_item_cached_and_current, hstatus]

/-- Witness for `cache_gate_skips_iff_equal` at a concrete non-closed
record: equal strings give skip. -/
theorem cache_gate_skips_iff_equal_example :
    is_item_cached_and_current
      (.parsed (some "open") (some "2024-01-01T00:00:00Z"))
      "2024-01-01T00:00:00Z" = true := by
  have h := cache_gate_skips_iff_equal (some "open")
    (some "2024-01-01T00:00:00Z") "2024-01-01T00:00:00Z" (by decide)
  simpa using h

/-- C6: for every existing, parseable cache file whose `status` is
`'closed'`, the gate returns skip (`true`) whatever the cached and remote
`updated_at` values are — including a remote value strictly newer than
the cached one. -/
theorem cache_gate_closed_always_skips (cachedUpd : Option String)
    (remoteUpd : String) :
    is_item_cached_and_current (.parsed (some "closed") cachedUpd) remoteUpd
      = true := by
  simp [is_item_cached_and_current]

/-- C5, counterexample: a parseable cache file that is missing both
expected keys (`status` and `updated_at`) does not make the gate return
fetch (`false`) when the remote `updated_at` is the empty string: the
missing key is defaulted to `''`, which compares equal, so the gate
returns skip (`true`) — contradicting the claim that every
missing-expected-key file yields fetch. -/
theorem cache_gate_missing_key_can_skip :
    is_item_cached_and_current (.parsed none none) "" = true := by
  decide

/-- C5, amended: a missing, unreadable or JSON-corrupt cache file always
yields fetch (`false`) and, the function being total, never raises; a
parseable file with a missing key is not treated as corrupt but
defaulted (`status → None`, `updated_at → ''`), so a non-closed record
missing its `updated_at` key yields fetch exactly when the remote value
differs from the empty-string default. -/
theorem cache_gate_corrupt_fetches (remoteUpd : String)
    (status : Option String) (hstatus : status ≠ some "closed") :
    is_item_cached_and_current .corrupt remoteUpd = false
    ∧ is_item_cached_and_current .missing remoteUpd = false
    ∧ is_item_cached_and_current (.parsed status none) remoteUpd
        = (remoteUpd == "") := by
  refine ⟨rfl, rfl, ?_⟩
  rcases String.decEq remoteUpd "" with h | h
  · simp [is_item_cached_and_current, hstatus, h]
    exact fun hc => absurd hc.symm h
  · simp [is_item_cached_and_current, hstatus, h]

/-- Witness for `cache_gate_corrupt_fetches` at a concrete input: an
invalid-JSON cache file yields fetch, and a non-closed record missing its
`updated_at` key yields fetch for a nonempty remote value. -/
theorem cache_gate_corrupt_fetches_example :
    is_item_cached_and_current .corrupt "2024-01-01T00:00:00Z" = false
    ∧ is_item_cached_and_current .missing "2024-01-01T00:00:00Z" = false
    ∧ is_item_cached_and_current (.parsed (some "open") none)
        "2024-01-01T00:00:00Z" = ("2024-01-01T00:00:00Z" == "") := by
  exact cache_gate_corrupt_fetches "2024-01-01T00:00:00Z" (some "open")
    (by decide)

/-! ## Theorems about wait_if_needed -/

lemma mem_pruneWindow {times : List Int} {now t : Int} :
    t ∈ pruneWindow times now ↔ t ∈ times ∧ now - 60 < t := by
  simp [pruneWindow]

lemma sleepUntilWindowFrees_ge (maxPerMinute : Nat) (pruned : List Int)
    (now : Int) : now ≤ sleepUntilWindowFrees maxPerMinute pruned now := by
  unfold sleepUntilWindowFrees
  split
  · split
    · split <;> omega
    · omega
  · omega

lemma pruneWindow_append (l₁ l₂ : List Int) (now : Int) :
    pruneWindow (l₁ ++ l₂) now = pruneWindow l₁ now ++ pruneWindow l₂ now := by
  simp [pruneWindow]

lemma sleepUntilWindowFrees_of_min (maxPerMinute : Nat) (pruned : List Int)
    (now oldest : Int) (hbudget : maxPerMinute ≤ pruned.length)
    (hmin : pruned.min? = some oldest) (hrecent : now - 60 < oldest) :
    sleepUntilWindowFrees maxPerMinute pruned now = oldest + 61 := by
  unfold sleepUntilWindowFrees
  rw [if_pos hbudget, hmin]
  show (if 0 < 61 - (now - oldest) then now + (61 - (now - oldest)) else now)
      = oldest + 61
  rw [if_pos (by omega)]
  omega

/-- C2: one call to `wait_if_needed`, entered at wall-clock time `now`
with a positive per-minute budget, a record list from the past and at
most the budget inside the trailing 60-second window, (i) replaces the
record list by its pruned form plus exactly one new timestamp — the time
captured at entry, (ii) increments the total-request counter by one,
(iii) returns at a time no earlier than it was entered, with every
recorded timestamp in the past, (iv) when the pruned count has reached
the budget, blocks until the oldest remaining timestamp is more than 60
seconds old, and (v) re-establishes the invariant that the number of
recorded timestamps inside the trailing 60-second window at the return
time is at most the budget — so along any run of calls the window count
never exceeds the configured maximum. -/
theorem wait_if_needed_spec (maxPerMinute : Nat) (s : RateLimiterState)
    (now : Int) (hpos : 0 < maxPerMinute)
    (hpast : ∀ t ∈ s.request_times, t ≤ now)
    (hinv : (pruneWindow s.request_times now).length ≤ maxPerMinute) :
    (wait_if_needed maxPerMinute s now).1.request_times
        = pruneWindow s.request_times now ++ [now]
    ∧ (wait_if_needed maxPerMinute s now).1.total_requests
        = s.total_requests + 1
    ∧ now ≤ (wait_if_needed maxPerMinute s now).2
    ∧ (∀ t ∈ (wait_if_needed maxPerMinute s now).1.request_times,
        t ≤ (wait_if_needed maxPerMinute s now).2)
    ∧ (maxPerMinute ≤ (pruneWindow s.request_times now).length →
        ∀ oldest, (pruneWindow s.request_times now).min? = some oldest →
          60 < (wait_if_needed maxPerMinute s now).2 - oldest)
    ∧ (pruneWindow (wait_if_needed maxPerMinute s now).1.request_times
        (wait_if_needed maxPerMinute s now).2).length ≤ maxPerMinute := by
  have hret : (wait_if_needed maxPerMinute s now).2
      = sleepUntilWindowFrees maxPerMinute (pruneWindow s.request_times now)
          now := rfl
  have hge : now ≤ (wait_if_needed maxPerMinute s now).2 := by
    rw [hret]; exact sleepUntilWindowFrees_ge _ _ _
  refine ⟨rfl, rfl, hge, ?_, ?_, ?_⟩
  · intro t ht
    rcases List.mem_append.mp ht with hmem | hmem
    · exact le_trans (hpast t (mem_pruneWindow.mp hmem).1) hge
    · rcases List.mem_singleton.mp hmem with rfl
      exact hge
  · intro hbudget oldest hmin
    have hom : oldest ∈ pruneWindow s.request_times now :=
      List.min?_mem (fun a b => min_choice a b) hmin
    have hrecent : now - 60 < oldest := (mem_pruneWindow.mp hom).2
    rw [hret, sleepUntilWindowFrees_of_min maxPerMinute _ now oldest hbudget
      hmin hrecent]
    omega
  · by_cases hbudget : maxPerMinute ≤ (pruneWindow s.request_times now).length
    · -- at the budget: the call sleeps until `oldest + 61`, so at the
      -- return time the oldest pruned timestamp has left the window
      have hne : pruneWindow s.request_times now ≠ [] := by
        intro hnil
        rw [hnil] at hbudget
        simp at hbudget
        omega
      obtain ⟨oldest, hmin⟩ :
          ∃ oldest, (pruneWindow s.request_times now).min? = some oldest := by
        cases hmo : (pruneWindow s.request_times now).min? with
        | none => exact absurd (List.min?_eq_none_iff.mp hmo) hne
        | some a => exact ⟨a, rfl⟩
      have hom : oldest ∈ pruneWindow s.request_times now :=
        List.min?_mem (fun a b => min_choice a b) hmin
      have hrecent : now - 60 < oldest := (mem_pruneWindow.mp hom).2
      have hret2 : (wait_if_needed maxPerMinute s now).2 = oldest + 61 := by
        rw [hret, sleepUntilWindowFrees_of_min maxPerMinute _ now oldest
          hbudget hmin hrecent]
      have htimes : (wait_if_needed maxPerMinute s now).1.request_times
          = pruneWindow s.request_times now ++ [now] := rfl
      rw [htimes, hret2, pruneWindow_append, List.length_append]
      have hdrop : (pruneWindow (pruneWindow s.request_times now)
          (oldest + 61)).length < (pruneWindow s.request_times now).length := by
        unfold pruneWindow
        refine List.length_filter_lt_length_iff_exists.mpr ⟨oldest, ?_, ?_⟩
        · exact hom
        · simp
          omega
      have hone : (pruneWindow [now] (oldest + 61)).length ≤ 1 := by
        unfold pruneWindow
        simpa using List.length_filter_le _ [now]
      omega
    · -- under the budget: no sleep, the window gains at most one entry
      have hret2 : (wait_if_needed maxPerMinute s now).2 = now := by
        rw [hret]; unfold sleepUntilWindowFrees; rw [if_neg hbudget]
      have htimes : (wait_if_needed maxPerMinute s now).1.request_times
          = pruneWindow s.request_times now ++ [now] := rfl
      rw [htimes, hret2, pruneWindow_append, List.length_append]
      have hsub : (pruneWindow (pruneWindow s.request_times now) now).length
          ≤ (pruneWindow s.request_times now).length := by
        unfold pruneWindow
        exact List.length_filter_le _ _
      have hone : (pruneWindow [now] now).length ≤ 1 := by
        unfold pruneWindow
        exact List.length_filter_le _ [now]
      omega

/-- Witness for `wait_if_needed_spec`: budget 1, one recorded timestamp
at time 0, called at time 0 — the counter increments and the window
invariant holds at the (delayed) return time. -/
theorem wait_if_needed_spec_example :
    (wait_if_needed 1 ⟨[0], 0⟩ 0).1.total_requests = 0 + 1
    ∧ (pruneWindow (wait_if_needed 1 ⟨[0], 0⟩ 0).1.request_times
        (wait_if_needed 1 ⟨[0], 0⟩ 0).2).length ≤ 1 := by
  have h := wait_if_needed_spec 1 ⟨[0], 0⟩ 0 (by decide)
    (by intro t ht; simp at ht; omega) (by decide)
  exact ⟨h.2.1, h.2.2.2.2.2⟩

/-! ## Theorems about handle_rate_limit_response -/

/-- C7: a 429 response makes `handle_rate_limit_response` sleep for the
`retry-after` header value (60 seconds when the header is absent) and
return `true` (retry); any other status code returns `false` with no
sleep, leaving the rate-limited counter unchanged. -/
theorem handle_rate_limit_response_spec (statusCode : Nat)
    (retryAfter : Option Nat) (count : Nat) :
    (statusCode = 429 →
      handle_rate_limit_response statusCode retryAfter count
        = (true, retryAfter.getD 60, count + 1))
    ∧ (statusCode ≠ 429 →
      handle_rate_limit_response statusCode retryAfter count
        = (false, 0, count)) := by
  constructor
  · intro h; simp [handle_rate_limit_response, h]
  · intro h; simp [handle_rate_limit_response, h]

/-- Witness for `handle_rate_limit_response_spec`: status 429 with
`retry-after: 5` sleeps 5 seconds and signals retry; status 200 signals
no retry with no sleep. -/
theorem handle_rate_limit_response_spec_example :
    handle_rate_limit_response 429 (some 5) 0 = (true, 5, 1)
    ∧ handle_rate_limit_response 200 (some 5) 0 = (false, 0, 0) :=
  ⟨(handle_rate_limit_response_spec 429 (some 5) 0).1 rfl,
   (handle_rate_limit_response_spec 200 (some 5) 0).2 (by decide)⟩

/-! ## Theorems about fetch_data_with_retries -/

/-- C3, counterexample: when every attempt fails, the sleeps performed
between the three attempts are 2 seconds (before attempt 2) and
3 seconds (before attempt 3) — the code computes `(2 ** attempt) + 1` —
not the approximately 3 and 7 seconds the claim states. -/
theorem fetch_retries_backoff_counterexample :
    (fetch_data_with_retries (fun _ => (.error 0 : Except Nat Nat)) 3).2
        = [2, 3]
    ∧ (fetch_data_with_retries (fun _ => (.error 0 : Except Nat Nat)) 3).2
        ≠ [3, 7] := by
  decide

/-- C3, amended: `fetch_data_with_retries` makes at most 3 attempts —
no delay before attempt 1, a 2-second sleep before attempt 2 and a
3-second sleep before attempt 3 (`(2 ** attempt) + 1`) — and when the
third attempt also fails it gives up and propagates that last error;
a first-attempt success returns immediately with no sleep. -/
theorem fetch_retries_spec (fetch : Nat → Except ε α) (e₀ e₁ e₂ : ε)
    (a : α) :
    (fetch 0 = .ok a →
      fetch_data_with_retries fetch 3 = (some (.ok a), []))
    ∧ (fetch 0 = .error e₀ → fetch 1 = .error e₁ → fetch 2 = .error e₂ →
      fetch_data_with_retries fetch 3 = (some (.error e₂), [2, 3])) := by
  constructor
  · intro h
    simp [fetch_data_with_retries, fetchRetryLoop, h]
  · intro h₀ h₁ h₂
    simp [fetch_data_with_retries, fetchRetryLoop, h₀, h₁, h₂]

/-- Witness for `fetch_retries_spec`: a fetch failing on attempts 0 and 1
and succeeding on attempt 2 is not needed — we instantiate the
always-failing and the immediately-succeeding cases. -/
theorem fetch_retries_spec_example :
    fetch_data_with_retries (fun i => (.error i : Except Nat Nat)) 3
        = (some (.error 2), [2, 3])
    ∧ fetch_data_with_retries (fun _ => (.ok 7 : Except Nat Nat)) 3
        = (some (.ok 7), []) :=
  ⟨(fetch_retries_spec (fun i => (.error i : Except Nat Nat)) 0 1 2 0).2
      rfl rfl rfl,
   (fetch_retries_spec (fun _ => (.ok 7 : Except Nat Nat)) 0 0 0 7).1 rfl⟩

/-! ## Theorems about the pagination loops -/

lemma pubsubTicketsLoop_step {E I : Type} [DecidableEq E]
    (server : E → List I × Option E) (fuel : Nat) (e : E)
    (previous : Option E) (log : List I) :
    pubsubTicketsLoop server (fuel + 1) (some e) previous log
      = if some e = previous then some (log ++ (server e).1)
        else pubsubTicketsLoop server fuel (server e).2 (some e)
          (log ++ (server e).1) := rfl

lemma backupTicketsLoop_step {E I R T : Type} [DecidableEq T]
    (server : E → Except Unit (TicketsPage E I T)) (proc : I → R)
    (fuel : Nat) (e : E) (prevEnd : Option T) (log : List R) :
    backupTicketsLoop server proc (fuel + 1) (some e) prevEnd log
      = match server e with
        | .error _ => some log
        | .ok page =>
          if page.tickets.isEmpty then some log
          else
            if page.end_time = prevEnd then
              some (log ++ page.tickets.map proc)
            else backupTicketsLoop server proc fuel page.next_page
              page.end_time (log ++ page.tickets.map proc) := rfl

/-- C4: both ticket pagination loops terminate when the server hands
back the same "next page" endpoint twice in a row.  For the pubsub loop,
if `next_page` of endpoint `e` points back to `e`, the comparison of the
current endpoint with the previous one fires on the following iteration
and the loop exits within 2 iterations, whatever fuel ≥ 2 it is given.
For `backup_tickets`, refetching the self-pointing endpoint reproduces
the same page, so its `end_time` equals the previous one and the loop
likewise exits within 2 iterations. -/
theorem repeated_next_page_terminates {E I R T : Type} [DecidableEq E]
    [DecidableEq T] (server : E → List I × Option E)
    (serverT : E → Except Unit (TicketsPage E I T)) (proc : I → R)
    (e : E) (previous : Option E) (prevEnd : Option T)
    (log : List I) (logT : List R) (fuel fuelT : Nat)
    (page : TicketsPage E I T) :
    ((server e).2 = some e → 2 ≤ fuel →
      (pubsubTicketsLoop server fuel (some e) previous log).isSome = true)
    ∧ (serverT e = .ok page → page.next_page = some e → 2 ≤ fuelT →
      (backupTicketsLoop serverT proc fuelT (some e) prevEnd logT).isSome
        = true) := by
  constructor
  · intro hnext hfuel
    obtain ⟨k, rfl⟩ : ∃ k, fuel = k + 2 := ⟨fuel - 2, by omega⟩
    rw [(rfl : k + 2 = (k + 1) + 1), pubsubTicketsLoop_step]
    by_cases hp : some e = previous
    · rw [if_pos hp]
      rfl
    · rw [if_neg hp, hnext, pubsubTicketsLoop_step, if_pos rfl]
      rfl
  · intro hpage hnext hfuel
    obtain ⟨k, rfl⟩ : ∃ k, fuelT = k + 2 := ⟨fuelT - 2, by omega⟩
    rw [(rfl : k + 2 = (k + 1) + 1), backupTicketsLoop_step, hpage]
    show (if page.tickets.isEmpty then some logT
        else
          if page.end_time = prevEnd then
            some (logT ++ page.tickets.map proc)
          else backupTicketsLoop serverT proc (k + 1) page.next_page
            page.end_time (logT ++ page.tickets.map proc)).isSome = true
    by_cases hemp : page.tickets.isEmpty
    · rw [if_pos hemp]; rfl
    · rw [if_neg hemp]
      by_cases hend : page.end_time = prevEnd
      · rw [if_pos hend]; rfl
      · rw [if_neg hend, hnext, backupTicketsLoop_step, hpage]
        show (if page.tickets.isEmpty then _
            else
              if page.end_time = page.end_time then
                some ((logT ++ page.tickets.map proc)
                  ++ page.tickets.map proc)
              else _).isSome = true
        rw [if_neg hemp, if_pos rfl]
        rfl

/-- Witness for `repeated_next_page_terminates`: a one-endpoint server
whose `next_page` points back to itself; both loops exit with fuel 2. -/
theorem repeated_next_page_terminates_example :
    (pubsubTicketsLoop (fun _ : Nat => ([0], some 0)) 2 (some 0) none
      []).isSome = true
    ∧ (backupTicketsLoop
        (fun _ : Nat => (.ok ⟨[0], some 9, some 0⟩
          : Except Unit (TicketsPage Nat Nat Nat)))
        (fun i => i) 2 (some 0) none []).isSome = true := by
  have h := repeated_next_page_terminates
    (fun _ : Nat => (([0] : List Nat), some 0))
    (fun _ : Nat => (.ok ⟨[0], some 9, some 0⟩
      : Except Unit (TicketsPage Nat Nat Nat)))
    (fun i : Nat => i) 0 none none [] [] 2 2 ⟨[0], some 9, some 0⟩
  exact ⟨h.1 rfl (by omega), h.2 rfl rfl (by omega)⟩

/-- C8: the `backup_tickets` fetch loop appends each page's processed
tickets to the accumulator and follows the next-page pointer; it stops
on a page with zero tickets (before appending anything) and on an
empty next-page pointer (after appending).  In particular, on the
four-page demo server — three pages of two tickets each, then a page
with an empty ticket array — the accumulator ends with exactly the six
tickets and the loop stops on the empty page, for every fuel ≥ 4. -/
theorem paged_fetch_spec {E I R T : Type} [DecidableEq T]
    (server : E → Except Unit (TicketsPage E I T)) (proc : I → R)
    (e : E) (prevEnd : Option T) (log : List R) (fuel : Nat)
    (page : TicketsPage E I T) :
    (1 ≤ fuel → server e = .ok page → page.tickets = [] →
      backupTicketsLoop server proc fuel (some e) prevEnd log = some log)
    ∧ (2 ≤ fuel → server e = .ok page → page.tickets ≠ [] →
        page.end_time ≠ prevEnd → page.next_page = none →
      backupTicketsLoop server proc fuel (some e) prevEnd log
        = some (log ++ page.tickets.map proc))
    ∧ (∀ fuelD, 4 ≤ fuelD →
      backupTicketsLoop demoTicketServer (fun i => i) fuelD (some 1) none []
        = some [1, 2, 3, 4, 5, 6]) := by
  refine ⟨?_, ?_, ?_⟩
  · intro hfuel hpage hempty
    obtain ⟨k, rfl⟩ : ∃ k, fuel = k + 1 := ⟨fuel - 1, by omega⟩
    rw [backupTicketsLoop_step, hpage]
    show (if page.tickets.isEmpty then some log else _) = some log
    rw [if_pos (by simp [hempty])]
  · intro hfuel hpage hnonempty hend hnone
    obtain ⟨k, rfl⟩ : ∃ k, fuel = k + 2 := ⟨fuel - 2, by omega⟩
    rw [(rfl : k + 2 = (k + 1) + 1), backupTicketsLoop_step, hpage]
    show (if page.tickets.isEmpty then some log
        else
          if page.end_time = prevEnd then some (log ++ page.tickets.map proc)
          else backupTicketsLoop server proc (k + 1) page.next_page
            page.end_time (log ++ page.tickets.map proc))
        = some (log ++ page.tickets.map proc)
    rw [if_neg (by simp [hnonempty]), if_neg hend, hnone]
    rfl
  · intro fuelD hf
    obtain ⟨k, rfl⟩ : ∃ k, fuelD = k + 4 := ⟨fuelD - 4, by omega⟩
    have s1 : ∀ m, backupTicketsLoop demoTicketServer (fun i => i) (m + 1)
        (some 1) none []
        = backupTicketsLoop demoTicketServer (fun i => i) m (some 2)
          (some 101) [1, 2] := fun m => rfl
    have s2 : ∀ m, backupTicketsLoop demoTicketServer (fun i => i) (m + 1)
        (some 2) (some 101) [1, 2]
        = backupTicketsLoop demoTicketServer (fun i => i) m (some 3)
          (some 102) [1, 2, 3, 4] := fun m => rfl
    have s3 : ∀ m, backupTicketsLoop demoTicketServer (fun i => i) (m + 1)
        (some 3) (some 102) [1, 2, 3, 4]
        = backupTicketsLoop demoTicketServer (fun i => i) m (some 4)
          (some 103) [1, 2, 3, 4, 5, 6] := fun m => rfl
    have s4 : ∀ m, backupTicketsLoop demoTicketServer (fun i => i) (m + 1)
        (some 4) (some 103) [1, 2, 3, 4, 5, 6]
        = some [1, 2, 3, 4, 5, 6] := fun m => rfl
    exact (s1 (k + 3)).trans ((s2 (k + 2)).trans
      ((s3 (k + 1)).trans (s4 k)))

/-- Witness for `paged_fetch_spec`: the demo run with fuel 4 collects
exactly the six tickets, and a zero-ticket page stops the loop leaving
the accumulator untouched. -/
theorem paged_fetch_spec_example :
    backupTicketsLoop demoTicketServer (fun i => i) 4 (some 1) none []
        = some [1, 2, 3, 4, 5, 6]
    ∧ backupTicketsLoop demoTicketServer (fun i => i) 1 (some 4) (some 103)
        [9] = some [9] := by
  have h := paged_fetch_spec demoTicketServer (fun i => i) 4 (some 103)
    [9] 1 ⟨[], some 104, none⟩
  exact ⟨h.2.2 4 (by omega), h.1 (by omega) rfl rfl⟩

/-! ## Theorems about error propagation (C9) -/

/-- C9, counterexample: when the organizations page fetch fails after
retries, `main` aborts the whole remaining run — only the support assets
and guide articles (which precede organizations) are backed up, and the
sibling tickets resource is never processed, contradicting the claim
that a per-resource failure leaves all siblings running. -/
theorem resource_failure_aborts_siblings :
    mainRun (fun r => decide (r = .organizations))
        = (false, [.supportAssets, .guideArticles])
    ∧ Resource.tickets ∉ (mainRun (fun r => decide (r = .organizations))).2
      := by
  decide

/-- C9, amended: per-record failures are caught and recorded as an
`error` status row without aborting the batch; a page-fetch failure is
survived only by the tickets loop (whose `try/except` breaks, letting
the rest of the run continue), while a page-fetch failure in any other
resource — organizations, say — propagates to `main` and aborts every
resource that has not yet run, tickets included. -/
theorem error_propagation_spec :
    (∀ (jobs₁ jobs₂ : List (Bool × Bool × Bool × String))
        (j : Bool × Bool × Bool × String),
      processTicketBatch (jobs₁ ++ j :: jobs₂)
        = processTicketBatch jobs₁
          ++ process_ticket j.1 j.2.1 j.2.2.1 j.2.2.2
            :: processTicketBatch jobs₂)
    ∧ (∀ (filename : String) (cachedCurrent copyOk : Bool),
        (cachedCurrent && copyOk) = false →
        process_ticket cachedCurrent copyOk false filename
          = (filename, "error"))
    ∧ mainRun (fun r => decide (r = .tickets)) = (true, mainOrder)
    ∧ (∀ fetchFails : Resource → Bool, fetchFails .organizations = true →
        Resource.tickets ∉ (mainRun fetchFails).2) := by
  refine ⟨?_, ?_, by decide, ?_⟩
  · intro jobs₁ jobs₂ j
    simp [processTicketBatch]
  · intro filename cachedCurrent copyOk h
    simp [process_ticket, h]
  · intro fetchFails horg
    cases hA : fetchFails .supportAssets
    · cases hG : fetchFails .guideArticles
      · simp [mainRun, mainOrder, runBackups, backupResource,
          resourceCatchesFetchError, hA, hG, horg]
      · simp [mainRun, mainOrder, runBackups, backupResource,
          resourceCatchesFetchError, hA, hG]
    · simp [mainRun, mainOrder, runBackups, backupResource,
        resourceCatchesFetchError, hA]

/-- Witness for `error_propagation_spec`: a record whose write fails
yields an `error` row in the batch log; a run where every fetch fails
(organizations included) never reaches the tickets resource. -/
theorem error_propagation_spec_example :
    processTicketBatch ([] ++ (false, false, false, "10.json") :: [])
        = processTicketBatch []
          ++ process_ticket false false false "10.json"
            :: processTicketBatch []
    ∧ process_ticket false false false "10.json" = ("10.json", "error")
    ∧ mainRun (fun r => decide (r = .tickets)) = (true, mainOrder)
    ∧ Resource.tickets ∉ (mainRun (fun _ => true)).2 := by
  have h := error_propagation_spec
  exact ⟨h.1 [] [] (false, false, false, "10.json"),
    h.2.1 "10.json" false false rfl, h.2.2.1, h.2.2.2 (fun _ => true) rfl⟩

/-! ## Theorems about slugify (C10) -/

lemma mem_of_head?_eq {α : Type} {l : List α} {a : α}
    (h : l.head? = some a) : a ∈ l := by
  cases l with
  | nil => cases h
  | cons b t =>
    simp only [List.head?_cons, Option.some.injEq] at h
    exact h ▸ List.mem_cons_self b t

lemma dropWhile_head_false {p : Nat → Bool} {l : PyStr} {c : Nat}
    (h : (l.dropWhile p).head? = some c) : p c = false := by
  induction l with
  | nil => cases h
  | cons a t ih =>
    rw [List.dropWhile_cons] at h
    by_cases hpa : p a = true
    · rw [if_pos hpa] at h
      exact ih h
    · rw [if_neg hpa] at h
      simp only [List.head?_cons, Option.some.injEq] at h
      subst h
      exact Bool.not_eq_true _ ▸ (by simpa using hpa)

lemma dropWhile_eq_self_of_head {p : Nat → Bool} {l : PyStr}
    (h : ∀ c, l.head? = some c → p c = false) : l.dropWhile p = l := by
  cases l with
  | nil => rfl
  | cons a t =>
    rw [List.dropWhile_cons, if_neg]
    simp [h a rfl]

lemma head?_dropWhile_right {p : Nat → Bool} {m : PyStr} {c : Nat}
    (h : ((m.reverse.dropWhile p).reverse).head? = some c) :
    m.head? = some c := by
  cases m with
  | nil => cases h
  | cons a t =>
    rw [List.reverse_cons, List.dropWhile_append] at h
    by_cases hE : ((t.reverse).dropWhile p).isEmpty = true
    · rw [if_pos hE] at h
      by_cases hpa : p a = true
      · rw [show List.dropWhile p [a] = [] by
          simp [List.dropWhile_cons, hpa]] at h
        cases h
      · rw [show List.dropWhile p [a] = [a] by
          simp [List.dropWhile_cons, hpa]] at h
        simpa using h
    · rw [if_neg hE, List.reverse_append] at h
      simpa using h

lemma pyStrip_head {l : PyStr} {c : Nat}
    (h : (pyStrip l).head? = some c) : isStripChar c = false :=
  dropWhile_head_false (head?_dropWhile_right h)

lemma pyStrip_getLast {l : PyStr} {c : Nat}
    (h : (pyStrip l).getLast? = some c) : isStripChar c = false := by
  unfold pyStrip at h
  rw [List.getLast?_reverse] at h
  exact dropWhile_head_false h

lemma pyStrip_subset {l : PyStr} : pyStrip l ⊆ l := by
  intro c hc
  unfold pyStrip at hc
  rw [List.mem_reverse] at hc
  have h1 := (List.dropWhile_suffix (l := (l.dropWhile isStripChar).reverse)
    isStripChar).sublist.subset hc
  rw [List.mem_reverse] at h1
  exact (List.dropWhile_suffix isStripChar).sublist.subset h1

lemma chain_noAdj_reverse {l : PyStr}
    (h : List.Chain' (fun a b => a ≠ 45 ∨ b ≠ 45) l) :
    List.Chain' (fun a b => a ≠ 45 ∨ b ≠ 45) l.reverse :=
  List.chain'_reverse.mpr (h.imp fun _ _ hab => hab.symm)

lemma pyStrip_chain {l : PyStr}
    (h : List.Chain' (fun a b => a ≠ 45 ∨ b ≠ 45) l) :
    List.Chain' (fun a b => a ≠ 45 ∨ b ≠ 45) (pyStrip l) := by
  unfold pyStrip
  exact chain_noAdj_reverse
    (((chain_noAdj_reverse (h.suffix (List.dropWhile_suffix _))).suffix
      (List.dropWhile_suffix _)))

lemma collapseRunsAux_head_true {l : PyStr} :
    ∀ c, (collapseRunsAux l true).head? = some c → isHyphenSpace c = false := by
  induction l with
  | nil => intro c h; cases h
  | cons a t ih =>
    intro c h
    by_cases ha : isHyphenSpace a = true
    · rw [show collapseRunsAux (a :: t) true = collapseRunsAux t true by
        simp [collapseRunsAux, ha]] at h
      exact ih c h
    · rw [show collapseRunsAux (a :: t) true = a :: collapseRunsAux t false by
        simp [collapseRunsAux, ha]] at h
      simp only [List.head?_cons, Option.some.injEq] at h
      subst h
      simpa using ha

lemma collapseRunsAux_chain (l : PyStr) :
    ∀ b, List.Chain' (fun a c => a ≠ 45 ∨ c ≠ 45) (collapseRunsAux l b) := by
  induction l with
  | nil => intro b; exact List.chain'_nil
  | cons a t ih =>
    intro b
    by_cases ha : isHyphenSpace a = true
    · cases b with
      | true =>
        rw [show collapseRunsAux (a :: t) true = collapseRunsAux t true by
          simp [collapseRunsAux, ha]]
        exact ih true
      | false =>
        rw [show collapseRunsAux (a :: t) false
            = 45 :: collapseRunsAux t true by simp [collapseRunsAux, ha]]
        refine List.chain'_cons'.mpr ⟨?_, ih true⟩
        intro y hy
        right
        intro hy45
        have := collapseRunsAux_head_true y (Option.mem_def.mp hy)
        rw [hy45] at this
        simp [isHyphenSpace] at this
    · rw [show collapseRunsAux (a :: t) b = a :: collapseRunsAux t false by
        cases b <;> simp [collapseRunsAux, ha]]
      refine List.chain'_cons'.mpr ⟨?_, ih false⟩
      intro y _
      left
      intro ha45
      rw [ha45] at ha
      simp [isHyphenSpace] at ha

lemma collapseRunsAux_mem {l : PyStr} {c : Nat} :
    ∀ b, c ∈ collapseRunsAux l b
      → c = 45 ∨ (c ∈ l ∧ isHyphenSpace c = false) := by
  induction l with
  | nil => intro b h; cases h
  | cons a t ih =>
    intro b h
    by_cases ha : isHyphenSpace a = true
    · cases b with
      | true =>
        rw [show collapseRunsAux (a :: t) true = collapseRunsAux t true by
          simp [collapseRunsAux, ha]] at h
        rcases ih true h with h45 | ⟨hmem, hns⟩
        · exact Or.inl h45
        · exact Or.inr ⟨List.mem_cons_of_mem a hmem, hns⟩
      | false =>
        rw [show collapseRunsAux (a :: t) false
            = 45 :: collapseRunsAux t true by simp [collapseRunsAux, ha]] at h
        rcases List.mem_cons.mp h with rfl | h'
        · exact Or.inl rfl
        · rcases ih true h' with h45 | ⟨hmem, hns⟩
          · exact Or.inl h45
          · exact Or.inr ⟨List.mem_cons_of_mem a hmem, hns⟩
    · rw [show collapseRunsAux (a :: t) b = a :: collapseRunsAux t false by
        cases b <;> simp [collapseRunsAux, ha]] at h
      rcases List.mem_cons.mp h with rfl | h'
      · exact Or.inr ⟨List.mem_cons_self _ _, by simpa using ha⟩
      · rcases ih false h' with h45 | ⟨hmem, hns⟩
        · exact Or.inl h45
        · exact Or.inr ⟨List.mem_cons_of_mem a hmem, hns⟩

lemma pyLowerChar_not_upper (d : Nat) :
    ¬(65 ≤ pyLowerChar d ∧ pyLowerChar d ≤ 90) := by
  unfold pyLowerChar
  split <;> omega

lemma chars_entering_collapse {t : PyStr} {c : Nat}
    (hc : c ∈ removeNonWordChars (pyLower t)) :
    isSlugChar c = true ∨ isHyphenSpace c = true := by
  rcases List.mem_filter.mp hc with ⟨hmem, hpred⟩
  rcases List.mem_map.mp hmem with ⟨d, _, rfl⟩
  have hup := pyLowerChar_not_upper d
  revert hpred hup
  simp [isWordChar, isSpaceChar, isHyphenSpace, isSlugChar]
  omega

/-- Well-formedness half of C10: every `slugify` output consists of
lowercase ASCII word characters and isolated hyphens, with neither end
a hyphen or underscore. -/
lemma slugify_wellformed (nfkd : PyStr → PyStr) (s : PyStr) :
    SlugWellFormed (slugify nfkd s) := by
  refine ⟨?_, ?_, ?_, ?_⟩
  · intro c hc
    have hmem := pyStrip_subset hc
    rcases collapseRunsAux_mem false hmem with h45 | ⟨hmem', hns⟩
    · exact Or.inr h45
    · rcases chars_entering_collapse hmem' with hslug | hhyph
      · exact Or.inl hslug
      · rw [hns] at hhyph
        cases hhyph
  · exact pyStrip_chain (collapseRunsAux_chain _ false)
  · intro c hc
    exact pyStrip_head hc
  · intro c hc
    exact pyStrip_getLast hc

lemma map_fix_of_mem {f : Nat → Nat} {l : PyStr}
    (h : ∀ c ∈ l, f c = c) : l.map f = l := by
  induction l with
  | nil => rfl
  | cons a t ih =>
    rw [List.map_cons, h a (List.mem_cons_self a t),
      ih fun c hc => h c (List.mem_cons_of_mem a hc)]

lemma collapseRunsAux_true_eq_false {l : PyStr}
    (h : ∀ c, l.head? = some c → isHyphenSpace c = false) :
    collapseRunsAux l true = collapseRunsAux l false := by
  cases l with
  | nil => rfl
  | cons a t => simp [collapseRunsAux, h a rfl]

lemma collapseRuns_fix {l : PyStr}
    (hchar : ∀ c ∈ l, isHyphenSpace c = true → c = 45)
    (hchain : List.Chain' (fun a b => a ≠ 45 ∨ b ≠ 45) l) :
    collapseRunsAux l false = l := by
  induction l with
  | nil => rfl
  | cons a t ih =>
    by_cases ha : isHyphenSpace a = true
    · have ha45 : a = 45 := hchar a (List.mem_cons_self a t) ha
      subst ha45
      rw [show collapseRunsAux (45 :: t) false
          = 45 :: collapseRunsAux t true by simp [collapseRunsAux, ha]]
      have hhead : ∀ y, t.head? = some y → isHyphenSpace y = false := by
        intro y hy
        have hyne : y ≠ 45 := by
          have h45y := (List.chain'_cons'.mp hchain).1 y (Option.mem_def.mpr hy)
          rcases h45y with h | h
          · exact absurd rfl h
          · exact h
        by_contra hhy
        exact hyne (hchar y (List.mem_cons_of_mem 45 (mem_of_head?_eq hy))
          (by simpa using hhy))
      rw [collapseRunsAux_true_eq_false hhead,
        ih (fun c hc h45 => hchar c (List.mem_cons_of_mem 45 hc) h45)
          (List.chain'_cons'.mp hchain).2]
    · rw [show collapseRunsAux (a :: t) false
          = a :: collapseRunsAux t false by simp [collapseRunsAux, ha]]
      rw [ih (fun c hc h45 => hchar c (List.mem_cons_of_mem a hc) h45)
        (List.chain'_cons'.mp hchain).2]

lemma pyStrip_fix {l : PyStr}
    (hh : ∀ c, l.head? = some c → isStripChar c = false)
    (hl : ∀ c, l.getLast? = some c → isStripChar c = false) :
    pyStrip l = l := by
  unfold pyStrip
  rw [dropWhile_eq_self_of_head hh]
  rw [dropWhile_eq_self_of_head
    (fun c hc => hl c ((List.head?_reverse l) ▸ hc))]
  exact List.reverse_reverse l

lemma slugify_fix (nfkd : PyStr → PyStr)
    (hascii : ∀ s : PyStr, (∀ c ∈ s, c < 128) → nfkd s = s)
    {w : PyStr} (hwf : SlugWellFormed w) : slugify nfkd w = w := by
  obtain ⟨hchars, hchain, hhead, hlast⟩ := hwf
  have hlt : ∀ c ∈ w, c < 128 := by
    intro c hc
    rcases hchars c hc with hs | h45
    · revert hs; simp [isSlugChar]; omega
    · omega
  have h0 : nfkd w = w := hascii w hlt
  have h1 : asciiEncodeIgnore w = w :=
    List.filter_eq_self.mpr fun c hc => by simpa using hlt c hc
  have h2 : pyLower w = w := by
    refine map_fix_of_mem fun c hc => ?_
    rcases hchars c hc with hs | h45
    · revert hs; unfold pyLowerChar; simp [isSlugChar]; omega
    · subst h45; rfl
  have h3 : removeNonWordChars w = w := by
    refine List.filter_eq_self.mpr fun c hc => ?_
    rcases hchars c hc with hs | h45
    · revert hs; simp [isWordChar, isSpaceChar, isSlugChar]; omega
    · subst h45; rfl
  have h4 : collapseRuns w = w := by
    refine collapseRuns_fix (fun c hc hhy => ?_) hchain
    rcases hchars c hc with hs | h45
    · revert hs hhy; simp [isHyphenSpace, isSpaceChar, isSlugChar]; omega
    · exact h45
  have h5 : pyStrip w = w := pyStrip_fix hhead hlast
  show pyStrip (collapseRuns (removeNonWordChars (pyLower
    (asciiEncodeIgnore (nfkd w))))) = w
  rw [h0, h1, h2, h3, h4, h5]

/-- C10: `slugify` (with `allow_unicode` at its default `False`) is a
pure function of its input — hence deterministic — and idempotent:
`slugify(slugify(s)) = slugify(s)` for every string `s`, given only
the Unicode guarantee that NFKD normalisation fixes ASCII-only strings;
moreover every output consists of lowercase ASCII word characters and
single (non-adjacent) hyphens, with no leading or trailing hyphen or
underscore, so it is stable as a filename component across runs. -/
theorem slugify_idempotent_and_wellformed (nfkd : PyStr → PyStr)
    (hascii : ∀ s : PyStr, (∀ c ∈ s, c < 128) → nfkd s = s) (s : PyStr) :
    SlugWellFormed (slugify nfkd s)
    ∧ slugify nfkd (slugify nfkd s) = slugify nfkd s :=
  ⟨slugify_wellformed nfkd s,
   slugify_fix nfkd hascii (slugify_wellformed nfkd s)⟩

/-- Witness for `slugify_idempotent_and_wellformed`: the identity as the
NFKD table (its ASCII-fixing hypothesis holds by `rfl`) on the code
points of `"Hello, World!"`. -/
theorem slugify_idempotent_and_wellformed_example :
    SlugWellFormed (slugify (fun t => t)
      [72, 101, 108, 108, 111, 44, 32, 87, 111, 114, 108, 100, 33])
    ∧ slugify (fun t => t) (slugify (fun t => t)
        [72, 101, 108, 108, 111, 44, 32, 87, 111, 114, 108, 100, 33])
      = slugify (fun t => t)
        [72, 101, 108, 108, 111, 44, 32, 87, 111, 114, 108, 100, 33] :=
  slugify_idempotent_and_wellformed (fun t => t) (fun _ _ => rfl)
    [72, 101, 108, 108, 111, 44, 32, 87, 111, 114, 108, 100, 33]

end ZendeskBackup
